import Mathlib

/-!
Shallow embedding of `src/mochi-plumber.c` (mochi-plumber NIC resolution).

The C file exposes `mochi_plumber_resolve_nic`, which rewrites a wildcard
CXI fabric address into one bound to a concrete NIC.  External collaborators
(hwloc topology queries, libfabric enumeration, the filesystem holding the
per-bucket round-robin counter files, `rand`) are modelled as an explicit
environment `Env`, an I/O-failure oracle `IOBehavior`, and a counter store
`CounterStore`.  Each embedded function threads the store and records which
resources were acquired and released, mirroring the C control flow branch by
branch.
-/

namespace MochiPlumber

/-- PCI bus location of a NIC (`struct fi_pci_attr` fields used by the code). -/
structure Pci where
  domain_id : Nat
  bus_id : Nat
  device_id : Nat
  function_id : Nat
deriving DecidableEq, Repr

/-- One libfabric interface record as the code consumes it:
`cur->domain_attr->name` and, when `cur->nic && cur->nic->bus_attr &&
bus_type == FI_BUS_PCI`, the PCI location (`none` models a record without
usable PCI bus data). -/
structure NicDesc where
  name : String
  pci : Option Pci
deriving DecidableEq, Repr

/-- External environment of one resolution call.

* `numaCount` — `hwloc_bitmap_weight(hwloc_topology_get_complete_nodeset)`;
* `pciLookup` — composition of `hwloc_get_pcidev_by_busid` with
  `hwloc_get_non_io_ancestor_obj` / `hwloc_bitmap_first(nodeset)`: `none`
  when the device is not found in the topology, otherwise the NUMA node id;
* `enumResult` — outcome of `fi_getinfo` (`.error ret` with `ret ≠ 0`);
* `lastCpuFails` — whether `hwloc_get_last_cpu_location` returns `< 0`;
* `lastNuma` — `hwloc_bitmap_first` of the nodeset of the calling thread;
* `randVal` — the (non-negative) value produced by `rand()`. -/
structure Env where
  numaCount : Nat
  pciLookup : Pci → Option Nat
  enumResult : Except Int (List NicDesc)
  lastCpuFails : Bool
  lastNuma : Nat
  randVal : Nat

/-- Which of the fallible I/O steps inside `select_nic_roundrobin` fail on
this call: `mkdir` (with `errno != EEXIST`), `open`, `flock(LOCK_EX)`,
`pread`, `pwrite`. -/
structure IOBehavior where
  mkdirFails : Bool
  openFails : Bool
  flockFails : Bool
  preadFails : Bool
  pwriteFails : Bool
deriving DecidableEq, Repr

/-- All I/O steps succeed. -/
def IOBehavior.allOk : IOBehavior := ⟨false, false, false, false, false⟩

/-- Content of the per-bucket counter file, indexed by bucket index:
`none` means the file is absent or empty (so `pread` returns 0 and the C
variable keeps its initial `-1`); `some v` means the file holds the
integer `v`. -/
abbrev CounterStore := Nat → Option Int

/-- The C `%` on `int` (truncated division remainder). -/
def cMod (a b : Int) : Int := Int.tmod a b

/-- Embedding of `strncmp(s, p, strlen(p)) == 0`: the characters of `p` are
an initial segment of `s`. -/
def strncmpEq (s p : String) : Bool := p.data.isPrefixOf s.data

/-- The check at mochi-plumber.c:57-58: the last two characters of the
address are both `'/'` (the unresolved "empty authority" marker). -/
def lastTwoSlashes (s : String) : Bool := s.data.reverse.take 2 == ['/', '/']

/-- I/O failures `select_nic_roundrobin` can report (each returns `-1`). -/
inductive IOErr
  | mkdirFail
  | preadFail
  | pwriteFail
deriving DecidableEq, Repr

/-- Errors `select_nic` can report (each returns `-1`). -/
inductive SelErr
  | lastCpuLoc
  | inconsistentBucketPolicy
  | unknownNicPolicy
  | io (e : IOErr)
deriving DecidableEq, Repr

/-- Outcome of `select_nic_roundrobin`: the returned NIC (or error), the
content of the counter file afterwards, and which resources were acquired and
released during the call. -/
structure RROut where
  res : Except IOErr String
  file : Option Int
  fdOpened : Bool
  fdClosed : Bool
  lockAcquired : Bool
  lockReleased : Bool

/-- Embedding of `select_nic_roundrobin` (mochi-plumber.c:245-294).

Control flow mirrored from the source: `mkdir` failure returns `-1` before
any file is opened; an `open` failure is only reported (`fprintf`) — the
code continues with `fd < 0`, so the subsequent `flock` and `pread` fail and
the call exits through the `pread` error branch; the return value of
`flock(fd, LOCK_EX)` is never checked; a `pread`/`pwrite` failure unlocks
and returns `-1`; on success the next index `(nic_idx+1) % num_nics` is
written back and `bucket->nics[nic_idx]` returned.  No path contains a
`close(fd)` call, so `fdClosed` is `false` on every path. -/
def select_nic_roundrobin (bucket : List String) (io : IOBehavior)
    (file : Option Int) : RROut :=
  if io.mkdirFails then
    ⟨.error .mkdirFail, file, false, false, false, false⟩
  else
    let opened := !io.openFails
    let locked := opened && !io.flockFails
    if io.openFails || io.preadFails then
      ⟨.error .preadFail, file, opened, false, locked, locked⟩
    else
      let cur : Int := file.getD (-1)
      let next : Int := cMod (cur + 1) (bucket.length : Int)
      if io.pwriteFails then
        ⟨.error .pwriteFail, file, opened, false, locked, locked⟩
      else
        ⟨.ok (bucket.getD next.toNat ""), some next, opened, false, locked, locked⟩

/-- Embedding of `select_nic_random` (mochi-plumber.c:296-307):
`rand() % num_nics`. -/
def select_nic_random (env : Env) (bucket : List String) : String :=
  bucket.getD (env.randVal % bucket.length) ""

/-- Bucket choice at the head of `select_nic` (mochi-plumber.c:194-223):
index 0 when there is a single bucket, otherwise the first NUMA node of the
last CPU location of the thread under the "numa" policy; any other policy string
with several buckets is an inconsistency error. -/
def pickBucket (env : Env) (bucket_policy : String) (nbuckets : Nat) :
    Except SelErr Nat :=
  if nbuckets == 1 then .ok 0
  else if bucket_policy == "numa" then
    if env.lastCpuFails then .error .lastCpuLoc else .ok env.lastNuma
  else .error .inconsistentBucketPolicy

/-- Outcome of `select_nic`: selected NIC (or error), counter store after
the call, and the resource events of the round-robin helper (all `false`
when it was not invoked). -/
structure SelOut where
  res : Except SelErr String
  store : CounterStore
  fdOpened : Bool
  fdClosed : Bool
  lockAcquired : Bool
  lockReleased : Bool

/-- Embedding of `select_nic` (mochi-plumber.c:188-243): pick a bucket, return its only
NIC immediately when it has exactly one, otherwise dispatch on the NIC
policy string ("roundrobin" / "random"; anything else is an error). -/
def select_nic (env : Env) (bucket_policy nic_policy : String) (nbuckets : Nat)
    (buckets : List (List String)) (io : IOBehavior) (store : CounterStore) :
    SelOut :=
  match pickBucket env bucket_policy nbuckets with
  | .error e => ⟨.error e, store, false, false, false, false⟩
  | .ok bidx =>
    let bucket := buckets.getD bidx []
    if bucket.length == 1 then
      ⟨.ok (bucket.getD 0 ""), store, false, false, false, false⟩
    else if nic_policy == "roundrobin" then
      let r := select_nic_roundrobin bucket io (store bidx)
      ⟨r.res.mapError SelErr.io, fun j => if j == bidx then r.file else store j,
        r.fdOpened, r.fdClosed, r.lockAcquired, r.lockReleased⟩
    else if nic_policy == "random" then
      ⟨.ok (select_nic_random env bucket), store, false, false, false, false⟩
    else
      ⟨.error .unknownNicPolicy, store, false, false, false, false⟩

/-- Embedding of the `buckets[i].nics` append (mochi-plumber.c:149-152): grow the list at
index `i` by one name.  (A C write past the end of the bucket array is
undefined behaviour; here an out-of-range `i` leaves the list unchanged, and
the theorems that depend on placement carry an in-range hypothesis.) -/
def appendAt (bs : List (List String)) (i : Nat) (s : String) :
    List (List String) :=
  bs.set i (bs.getD i [] ++ [s])

/-- The interface loop of `mochi_plumber_resolve_nic` (mochi-plumber.c:120-154):
walk the enumerated interfaces; a record without PCI bus data is skipped; a
PCI device not found in the topology aborts with the name of the record (the code
prints it and returns `-1`); otherwise the name is appended to bucket 0 when
there is one bucket, else to the bucket of its NUMA node. -/
def assignLoop (lookup : Pci → Option Nat) (nbuckets : Nat) :
    List NicDesc → List (List String) → Except String (List (List String))
  | [], acc => .ok acc
  | n :: rest, acc =>
    match n.pci with
    | none => assignLoop lookup nbuckets rest acc
    | some p =>
      match lookup p with
      | none => .error n.name
      | some node =>
        assignLoop lookup nbuckets rest
          (appendAt acc (if nbuckets == 1 then 0 else node) n.name)

/-- The sanity-check loop (mochi-plumber.c:157-166): index of the first
bucket with no NICs, if any. -/
def firstEmpty : List (List String) → Option Nat
  | [] => none
  | b :: rest => if b.isEmpty then some 0 else (firstEmpty rest).map (· + 1)

/-- Errors `mochi_plumber_resolve_nic` can report.  All carry return value
`-1` except `enumFail`, which returns the `fi_getinfo` code. -/
inductive RErr
  | unknownBucketPolicy
  | enumFail (code : Int)
  | topoNotFound (name : String)
  | emptyBucket (idx : Nat)
  | selectFail (e : SelErr)
deriving DecidableEq, Repr

/-- The C return status of a resolution outcome: `0` on success, the
`fi_getinfo` code on enumeration failure, `-1` otherwise. -/
def statusOf : Except RErr String → Int
  | .ok _ => 0
  | .error (.enumFail code) => code
  | .error _ => -1

/-- Outcome of `mochi_plumber_resolve_nic`: the result, the counter store
afterwards, and which resources were acquired/released on the taken path
(`topoLoaded`/`topoDestroyed` for the hwloc topology, `enumObtained`/
`enumFreed` for the `fi_getinfo` list, plus the counter-file events). -/
structure ResolveOut where
  res : Except RErr String
  store : CounterStore
  topoLoaded : Bool
  topoDestroyed : Bool
  enumObtained : Bool
  enumFreed : Bool
  fdOpened : Bool
  fdClosed : Bool
  lockAcquired : Bool
  lockReleased : Bool

/-- The tail of `mochi_plumber_resolve_nic` once the bucket count is known
(mochi-plumber.c:94-185): enumerate interfaces, assign them to buckets,
reject any empty bucket (naming its index), select a NIC, and append the
selected name to the input address. -/
def resolveBuckets (env : Env) (io : IOBehavior) (store : CounterStore)
    (in_address bucket_policy nic_policy : String) (nbuckets : Nat) :
    ResolveOut :=
  match env.enumResult with
  | .error code =>
    ⟨.error (.enumFail code), store, true, true, false, false,
      false, false, false, false⟩
  | .ok nics =>
    match assignLoop env.pciLookup nbuckets nics (List.replicate nbuckets []) with
    | .error nm =>
      ⟨.error (.topoNotFound nm), store, true, true, true, true,
        false, false, false, false⟩
    | .ok buckets =>
      match firstEmpty buckets with
      | some i =>
        ⟨.error (.emptyBucket i), store, true, true, true, true,
          false, false, false, false⟩
      | none =>
        let s := select_nic env bucket_policy nic_policy nbuckets buckets io store
        match s.res with
        | .error e =>
          ⟨.error (.selectFail e), s.store, true, true, true, true,
            s.fdOpened, s.fdClosed, s.lockAcquired, s.lockReleased⟩
        | .ok nic =>
          ⟨.ok (in_address ++ nic), s.store, true, true, true, true,
            s.fdOpened, s.fdClosed, s.lockAcquired, s.lockReleased⟩

/-- Embedding of `mochi_plumber_resolve_nic` (mochi-plumber.c:31-186).

An address that names neither the `cxi` nor the `ofi+cxi` transport, or
whose last two characters are not `//`, is duplicated and returned with
status 0 before the topology is even loaded.  Otherwise the bucket count is
1 for policy "all", the complete-nodeset cardinality for "numa", and any
other bucket policy is rejected (after the topology was loaded and
destroyed). -/
def mochi_plumber_resolve_nic (env : Env) (io : IOBehavior)
    (store : CounterStore) (in_address bucket_policy nic_policy : String) :
    ResolveOut :=
  if !(strncmpEq in_address "cxi") && !(strncmpEq in_address "ofi+cxi") then
    ⟨.ok in_address, store, false, false, false, false,
      false, false, false, false⟩
  else if !(lastTwoSlashes in_address) then
    ⟨.ok in_address, store, false, false, false, false,
      false, false, false, false⟩
  else if bucket_policy == "all" then
    resolveBuckets env io store in_address bucket_policy nic_policy 1
  else if bucket_policy == "numa" then
    resolveBuckets env io store in_address bucket_policy nic_policy env.numaCount
  else
    ⟨.error .unknownBucketPolicy, store, true, true, false, false,
      false, false, false, false⟩

/-- Names of the enumerated interfaces that carry PCI bus data, in
enumeration order (the interfaces the assignment loop does not skip). -/
def pciNames (nics : List NicDesc) : List String :=
  nics.filterMap fun n => match n.pci with
    | none => none
    | some _ => some n.name

/-- Names the assignment loop routes to bucket `j`, in enumeration order:
interfaces with PCI bus data whose topology node (index 0 when there is a
single bucket) equals `j`. -/
def bucketNames (lookup : Pci → Option Nat) (nbuckets : Nat)
    (nics : List NicDesc) (j : Nat) : List String :=
  nics.filterMap fun n => match n.pci with
    | none => none
    | some p =>
      match lookup p with
      | none => none
      | some node =>
        if (if nbuckets == 1 then 0 else node) = j then some n.name else none

/-- A PCI location used by the concrete runs below. -/
def pciA : Pci := ⟨0, 0, 0, 0⟩

/-- A second PCI location used by the concrete runs below. -/
def pciB : Pci := ⟨0, 0, 1, 0⟩

/-- Environment of the resource-trace run for C8: one bucket, two CXI
interfaces with PCI data, every lookup succeeding. -/
def envTwoNics : Env :=
  ⟨1, fun _ => some 0, .ok [⟨"cxi0", some pciA⟩, ⟨"cxi1", some pciB⟩], false, 0, 0⟩

/-- Environment of the C3 counterexample: a single enumerated CXI interface
with PCI data, so the only bucket of the "all" policy holds exactly one
NIC. -/
def envSingleNic : Env := ⟨1, fun _ => some 0, .ok [⟨"cxi0", some pciA⟩], false, 0, 0⟩

/-- Environment of the `all_policy_topology_check` witness: one enumerated
interface with PCI data whose device the topology cannot find. -/
def envLookupFail : Env := ⟨1, fun _ => none, .ok [⟨"cxi0", some pciA⟩], false, 0, 0⟩

/-- Environment of the C4 runs: one bucket, two CXI interfaces with PCI
data, every lookup succeeding. -/
def envW4 : Env :=
  ⟨1, fun _ => some 0, .ok [⟨"cxi0", some pciA⟩, ⟨"cxi1", some pciB⟩], false, 0, 0⟩

/-! ## Theorems -/

/-- C1: For every bucket with N ≥ 2 NICs under the "roundrobin" policy, a
selection call treats an absent/empty counter file as current value -1,
computes `next = (current + 1) mod N` (C truncated `%`), persists `next`, and
returns the NIC at index `next`; starting from an absent counter file on a
3-NIC bucket, four successive calls return the NICs at indices 0, 1, 2, 0
with the file holding that index after each call. -/
theorem rr_rotation (bucket : List String) (file : Option Int)
    (hN : 2 ≤ bucket.length) :
    ((select_nic_roundrobin bucket IOBehavior.allOk file).res
        = .ok (bucket.getD (cMod (file.getD (-1) + 1) (bucket.length : Int)).toNat "")
      ∧ (select_nic_roundrobin bucket IOBehavior.allOk file).file
        = some (cMod (file.getD (-1) + 1) (bucket.length : Int)))
    ∧ (let b := ["nic0", "nic1", "nic2"]
       let r1 := select_nic_roundrobin b IOBehavior.allOk none
       let r2 := select_nic_roundrobin b IOBehavior.allOk r1.file
       let r3 := select_nic_roundrobin b IOBehavior.allOk r2.file
       let r4 := select_nic_roundrobin b IOBehavior.allOk r3.file
       (r1.res = .ok "nic0" ∧ r1.file = some 0)
       ∧ (r2.res = .ok "nic1" ∧ r2.file = some 1)
       ∧ (r3.res = .ok "nic2" ∧ r3.file = some 2)
       ∧ (r4.res = .ok "nic0" ∧ r4.file = some 0)) :=
  ⟨⟨rfl, rfl⟩, ⟨⟨rfl, rfl⟩, ⟨rfl, rfl⟩, ⟨rfl, rfl⟩, ⟨rfl, rfl⟩⟩⟩

/-- Witness for `rr_rotation` at the 3-NIC bucket `["a","b","c"]` with an
absent counter file: the first call returns the NIC at index 0. -/
theorem rr_rotation_witness :
    2 ≤ (["a", "b", "c"] : List String).length
    ∧ (select_nic_roundrobin ["a", "b", "c"] IOBehavior.allOk none).res = .ok "a" :=
  ⟨by decide, (rr_rotation ["a", "b", "c"] none (by decide)).1.1⟩

/-- C2: For every selected bucket containing exactly one NIC, `select_nic`
returns that NIC immediately regardless of the NIC-selection policy string,
with the counter store unchanged and no counter-file open or lock
acquisition. -/
theorem single_nic_bypass (env : Env) (io : IOBehavior) (store : CounterStore)
    (bucket_policy nic_policy : String) (nbuckets bidx : Nat)
    (buckets : List (List String))
    (hpick : pickBucket env bucket_policy nbuckets = .ok bidx)
    (h1 : (buckets.getD bidx []).length = 1) :
    (select_nic env bucket_policy nic_policy nbuckets buckets io store).res
        = .ok ((buckets.getD bidx []).getD 0 "")
    ∧ (select_nic env bucket_policy nic_policy nbuckets buckets io store).store
        = store
    ∧ (select_nic env bucket_policy nic_policy nbuckets buckets io store).fdOpened
        = false
    ∧ (select_nic env bucket_policy nic_policy nbuckets buckets io store).lockAcquired
        = false := by
  have key : select_nic env bucket_policy nic_policy nbuckets buckets io store
      = ⟨.ok ((buckets.getD bidx []).getD 0 ""), store, false, false, false, false⟩ := by
    unfold select_nic
    simp only [hpick, h1, beq_self_eq_true, if_true]
  rw [key]
  exact ⟨rfl, rfl, rfl, rfl⟩

/-- Witness for `single_nic_bypass`: a one-bucket layout whose only bucket
holds the single NIC `"n0"`; even with the unrecognized policy string
`"bogus"` the call returns `"n0"`. -/
theorem single_nic_bypass_witness :
    pickBucket ⟨1, fun _ => none, .error 1, false, 0, 0⟩ "all" 1 = .ok 0
    ∧ ([["n0"]].getD 0 []).length = 1
    ∧ (select_nic ⟨1, fun _ => none, .error 1, false, 0, 0⟩ "all" "bogus" 1
        [["n0"]] IOBehavior.allOk (fun _ => none)).res = .ok "n0" :=
  ⟨rfl, rfl,
    (single_nic_bypass ⟨1, fun _ => none, .error 1, false, 0, 0⟩ IOBehavior.allOk
      (fun _ => none) "all" "bogus" 1 0 [["n0"]] rfl rfl).1⟩

/-- C7 (amended): a `mkdir` (non-`EEXIST`), `open`, `pread`, or `pwrite`
failure makes `select_nic_roundrobin` return an error with the counter file
unchanged and no NIC — it never falls back to the Random policy; a
`flock(LOCK_EX)` failure, by contrast, is not checked by the code: with all
other steps succeeding the call still dispenses the next NIC. -/
theorem io_failure_aborts (bucket : List String) (io : IOBehavior)
    (file : Option Int)
    (h : io.mkdirFails = true ∨ io.openFails = true
         ∨ io.preadFails = true ∨ io.pwriteFails = true) :
    ((∃ e, (select_nic_roundrobin bucket io file).res = .error e)
      ∧ (select_nic_roundrobin bucket io file).file = file)
    ∧ (∀ (b : List String) (f : Option Int),
        (select_nic_roundrobin b ⟨false, false, true, false, false⟩ f).res
          = .ok (b.getD (cMod (f.getD (-1) + 1) (b.length : Int)).toNat "")) := by
  refine ⟨?_, fun b f => rfl⟩
  unfold select_nic_roundrobin
  cases hm : io.mkdirFails <;> cases ho : io.openFails <;>
    cases hp : io.preadFails <;> cases hw : io.pwriteFails <;>
    simp_all

/-- Witness for `io_failure_aborts`: a failing `pwrite` on a 2-NIC bucket
yields an error and leaves the counter file untouched. -/
theorem io_failure_aborts_witness :
    ((⟨false, false, false, false, true⟩ : IOBehavior).mkdirFails = true
      ∨ (⟨false, false, false, false, true⟩ : IOBehavior).openFails = true
      ∨ (⟨false, false, false, false, true⟩ : IOBehavior).preadFails = true
      ∨ (⟨false, false, false, false, true⟩ : IOBehavior).pwriteFails = true)
    ∧ ((∃ e, (select_nic_roundrobin ["a", "b"] ⟨false, false, false, false, true⟩
          none).res = .error e)
      ∧ (select_nic_roundrobin ["a", "b"] ⟨false, false, false, false, true⟩
          none).file = none) :=
  ⟨by simp,
    (io_failure_aborts ["a", "b"] ⟨false, false, false, false, true⟩ none
      (by simp)).1⟩

/-- C7 counterexample: the code never checks the return value of
`flock(fd, LOCK_EX)` (mochi-plumber.c:267), so a lock-acquisition failure
does not abort the call: with every other I/O step succeeding, the call
still returns a NIC (status 0) while no lock was ever held — contradicting
"any I/O or locking failure aborts the whole call and no NIC is returned". -/
theorem flock_failure_ignored :
    (select_nic_roundrobin ["a", "b"] ⟨false, false, true, false, false⟩ none).res
      = .ok "a"
    ∧ (select_nic_roundrobin ["a", "b"] ⟨false, false, true, false, false⟩
        none).lockAcquired = false
    ∧ (select_nic_roundrobin ["a", "b"] ⟨false, false, true, false, false⟩
        none).file = some 0 :=
  ⟨rfl, rfl, rfl⟩

/-- C10: when the stored counter is absent or in `[-1, N)`, a successful
round-robin call stores a value in `[0, N)` that equals the index of the
returned NIC. -/
theorem counter_invariant (bucket : List String) (file : Option Int)
    (hN : 2 ≤ bucket.length)
    (hfile : ∀ v, file = some v → -1 ≤ v ∧ v < (bucket.length : Int)) :
    ∃ k : Nat, k < bucket.length
      ∧ (select_nic_roundrobin bucket IOBehavior.allOk file).file = some (k : Int)
      ∧ (select_nic_roundrobin bucket IOBehavior.allOk file).res
          = .ok (bucket.getD k "") := by
  have hlen : (0 : Int) < (bucket.length : Int) := by exact_mod_cast by omega
  have hcur0 : 0 ≤ file.getD (-1) + 1 := by
    cases file with
    | none => simp
    | some v =>
      have := hfile v rfl
      simp only [Option.getD_some]
      omega
  have h1 : 0 ≤ cMod (file.getD (-1) + 1) (bucket.length : Int) :=
    Int.tmod_nonneg _ hcur0
  have h2 : cMod (file.getD (-1) + 1) (bucket.length : Int) < (bucket.length : Int) :=
    Int.tmod_lt_of_pos _ hlen
  refine ⟨(cMod (file.getD (-1) + 1) (bucket.length : Int)).toNat, by omega, ?_, rfl⟩
  show (select_nic_roundrobin bucket IOBehavior.allOk file).file = _
  rw [Int.toNat_of_nonneg h1]
  rfl

/-- Witness for `counter_invariant` on the bucket `["a","b","c"]` with stored
counter 1. -/
theorem counter_invariant_witness :
    ∃ k : Nat, k < 3
      ∧ (select_nic_roundrobin ["a", "b", "c"] IOBehavior.allOk (some 1)).file
          = some (k : Int)
      ∧ (select_nic_roundrobin ["a", "b", "c"] IOBehavior.allOk (some 1)).res
          = .ok (["a", "b", "c"].getD k "") :=
  counter_invariant ["a", "b", "c"] (some 1) (by decide)
    (fun v h => by cases h; exact ⟨by decide, by decide⟩)

/-- C8: on a successful round-robin resolution the topology handle is
destroyed, the enumeration list is freed and the advisory lock is released,
but the counter file descriptor opened by `select_nic_roundrobin` is never
closed — the source contains no `close(2)` call on any path, so the
descriptor leaks, contradicting the claim that every acquired resource
(including the open descriptor) is released on every exit path. -/
theorem fd_never_closed :
    (mochi_plumber_resolve_nic envTwoNics IOBehavior.allOk (fun _ => none)
        "cxi://" "all" "roundrobin").res = .ok "cxi://cxi0"
    ∧ (mochi_plumber_resolve_nic envTwoNics IOBehavior.allOk (fun _ => none)
        "cxi://" "all" "roundrobin").topoLoaded = true
    ∧ (mochi_plumber_resolve_nic envTwoNics IOBehavior.allOk (fun _ => none)
        "cxi://" "all" "roundrobin").topoDestroyed = true
    ∧ (mochi_plumber_resolve_nic envTwoNics IOBehavior.allOk (fun _ => none)
        "cxi://" "all" "roundrobin").enumObtained = true
    ∧ (mochi_plumber_resolve_nic envTwoNics IOBehavior.allOk (fun _ => none)
        "cxi://" "all" "roundrobin").enumFreed = true
    ∧ (mochi_plumber_resolve_nic envTwoNics IOBehavior.allOk (fun _ => none)
        "cxi://" "all" "roundrobin").lockAcquired = true
    ∧ (mochi_plumber_resolve_nic envTwoNics IOBehavior.allOk (fun _ => none)
        "cxi://" "all" "roundrobin").lockReleased = true
    ∧ (mochi_plumber_resolve_nic envTwoNics IOBehavior.allOk (fun _ => none)
        "cxi://" "all" "roundrobin").fdOpened = true
    ∧ (mochi_plumber_resolve_nic envTwoNics IOBehavior.allOk (fun _ => none)
        "cxi://" "all" "roundrobin").fdClosed = false :=
  ⟨rfl, rfl, rfl, rfl, rfl, rfl, rfl, rfl, rfl⟩

/-- Reduction of `mochi_plumber_resolve_nic` on an eligible address under a
recognized bucket policy: the call proceeds to the bucket phase with 1
bucket for "all" and `numaCount` buckets for "numa". -/
theorem resolve_eligible (env : Env) (io : IOBehavior) (store : CounterStore)
    (addr bp np : String) (nb : Nat)
    (haddr : (strncmpEq addr "cxi" || strncmpEq addr "ofi+cxi") = true)
    (hslash : lastTwoSlashes addr = true)
    (hbp : (bp = "all" ∧ nb = 1) ∨ (bp = "numa" ∧ nb = env.numaCount)) :
    mochi_plumber_resolve_nic env io store addr bp np
      = resolveBuckets env io store addr bp np nb := by
  have hand : (!(strncmpEq addr "cxi") && !(strncmpEq addr "ofi+cxi")) = false := by
    rw [← Bool.not_or, haddr]; rfl
  rcases hbp with ⟨rfl, rfl⟩ | ⟨rfl, rfl⟩ <;>
    (unfold mochi_plumber_resolve_nic; simp only [hand, hslash]; rfl)

/-- C3 (amended): an unrecognized `bucketPolicy` on an eligible address
always yields the config error with the counter store untouched; an
unrecognized `nicPolicy` yields the config error with the store untouched
whenever the selected bucket holds at least two NICs — but a single-NIC
bucket returns its NIC before the `nicPolicy` string is ever examined, so an
unrecognized `nicPolicy` is not detected in that case. -/
theorem policy_validation_amended :
    (∀ (env : Env) (io : IOBehavior) (store : CounterStore) (addr bp np : String),
        (strncmpEq addr "cxi" || strncmpEq addr "ofi+cxi") = true →
        lastTwoSlashes addr = true → bp ≠ "all" → bp ≠ "numa" →
        (mochi_plumber_resolve_nic env io store addr bp np).res
            = .error .unknownBucketPolicy
          ∧ (mochi_plumber_resolve_nic env io store addr bp np).store = store
          ∧ statusOf (mochi_plumber_resolve_nic env io store addr bp np).res = -1)
    ∧ (∀ (env : Env) (io : IOBehavior) (store : CounterStore) (bp np : String)
        (nbuckets bidx : Nat) (buckets : List (List String)),
        pickBucket env bp nbuckets = .ok bidx →
        2 ≤ (buckets.getD bidx []).length →
        np ≠ "roundrobin" → np ≠ "random" →
        (select_nic env bp np nbuckets buckets io store).res
            = .error .unknownNicPolicy
          ∧ (select_nic env bp np nbuckets buckets io store).store = store) := by
  constructor
  · intro env io store addr bp np haddr hslash h1 h2
    have hand : (!(strncmpEq addr "cxi") && !(strncmpEq addr "ofi+cxi")) = false := by
      rw [← Bool.not_or, haddr]; rfl
    have key : mochi_plumber_resolve_nic env io store addr bp np
        = ⟨.error .unknownBucketPolicy, store, true, true, false, false,
            false, false, false, false⟩ := by
      unfold mochi_plumber_resolve_nic
      simp only [hand, hslash, beq_eq_false_iff_ne.mpr h1,
        beq_eq_false_iff_ne.mpr h2]
      rfl
    rw [key]
    exact ⟨rfl, rfl, rfl⟩
  · intro env io store bp np nbuckets bidx buckets hpick hlen h1 h2
    have hne : ((buckets.getD bidx []).length == 1) = false := by
      simp only [beq_eq_false_iff_ne]
      omega
    have key : select_nic env bp np nbuckets buckets io store
        = ⟨.error .unknownNicPolicy, store, false, false, false, false⟩ := by
      unfold select_nic
      simp only [hpick, hne, beq_eq_false_iff_ne.mpr h1, beq_eq_false_iff_ne.mpr h2]
      rfl
    rw [key]
    exact ⟨rfl, rfl⟩

/-- Witness for `policy_validation_amended`: a bad bucket policy on an
eligible address errors, and a bad NIC policy on a two-NIC bucket errors. -/
theorem policy_validation_amended_witness :
    (mochi_plumber_resolve_nic ⟨1, fun _ => none, .error 1, false, 0, 0⟩
        IOBehavior.allOk (fun _ => none) "cxi://" "bogus" "roundrobin").res
      = .error .unknownBucketPolicy
    ∧ (select_nic ⟨1, fun _ => none, .error 1, false, 0, 0⟩ "all" "bogus" 1
        [["a", "b"]] IOBehavior.allOk (fun _ => none)).res
      = .error .unknownNicPolicy :=
  ⟨(policy_validation_amended.1 ⟨1, fun _ => none, .error 1, false, 0, 0⟩
      IOBehavior.allOk (fun _ => none) "cxi://" "bogus" "roundrobin" rfl rfl
      (by decide) (by decide)).1,
   (policy_validation_amended.2 ⟨1, fun _ => none, .error 1, false, 0, 0⟩
      IOBehavior.allOk (fun _ => none) "all" "bogus" 1 0 [["a", "b"]] rfl
      (by decide) (by decide) (by decide)).1⟩

/-- C3 counterexample: with an eligible address, bucket policy "all",
one enumerated NIC and the unrecognized NIC policy `"bogus"`, resolution
succeeds (status 0) and returns a rewritten address: the single-NIC shortcut
at mochi-plumber.c:226 runs before the NIC-policy string is validated, so an
unrecognized `nicPolicy` does not always yield a config error. -/
theorem nic_policy_unchecked_single_nic :
    (mochi_plumber_resolve_nic envSingleNic IOBehavior.allOk (fun _ => none)
        "cxi://" "all" "bogus").res = .ok "cxi://cxi0"
    ∧ statusOf (mochi_plumber_resolve_nic envSingleNic IOBehavior.allOk
        (fun _ => none) "cxi://" "all" "bogus").res = 0 :=
  ⟨rfl, rfl⟩

/-- C6: an address that does not both name the supported transport
(`cxi`/`ofi+cxi` prefix) and end in `//` is returned unchanged with status 0
and an untouched counter store, for any policy strings; applying the
resolution again to the returned address and store returns the same address
again. -/
theorem passthrough_unchanged (env : Env) (io : IOBehavior) (store : CounterStore)
    (addr bp np : String)
    (h : ((strncmpEq addr "cxi" || strncmpEq addr "ofi+cxi")
          && lastTwoSlashes addr) = false) :
    (mochi_plumber_resolve_nic env io store addr bp np).res = .ok addr
    ∧ statusOf (mochi_plumber_resolve_nic env io store addr bp np).res = 0
    ∧ (mochi_plumber_resolve_nic env io store addr bp np).store = store
    ∧ (mochi_plumber_resolve_nic env io
        (mochi_plumber_resolve_nic env io store addr bp np).store addr bp np).res
        = .ok addr := by
  have key : ∀ st : CounterStore, mochi_plumber_resolve_nic env io st addr bp np
      = ⟨.ok addr, st, false, false, false, false, false, false, false, false⟩ := by
    intro st
    unfold mochi_plumber_resolve_nic
    cases hc : strncmpEq addr "cxi" <;> cases ho : strncmpEq addr "ofi+cxi" <;>
      cases hs : lastTwoSlashes addr <;> simp_all
  refine ⟨by rw [key], by rw [key]; rfl, by rw [key], ?_⟩
  have hst : (mochi_plumber_resolve_nic env io store addr bp np).store = store := by
    rw [key]
  rw [hst, key]

/-- Witness for `passthrough_unchanged` on the ineligible address
`"na+sm://x"`. -/
theorem passthrough_unchanged_witness :
    ((strncmpEq "na+sm://x" "cxi" || strncmpEq "na+sm://x" "ofi+cxi")
        && lastTwoSlashes "na+sm://x") = false
    ∧ (mochi_plumber_resolve_nic ⟨1, fun _ => none, .error 1, false, 0, 0⟩
        IOBehavior.allOk (fun _ => none) "na+sm://x" "all" "roundrobin").res
        = .ok "na+sm://x" :=
  ⟨rfl, (passthrough_unchanged ⟨1, fun _ => none, .error 1, false, 0, 0⟩
      IOBehavior.allOk (fun _ => none) "na+sm://x" "all" "roundrobin" rfl).1⟩

/-- If some enumerated interface has PCI bus data but its device is not in
the topology, the assignment loop fails (with some interface name). -/
theorem assignLoop_err_of_lookup_fail (lookup : Pci → Option Nat) (nb : Nat) :
    ∀ (nics : List NicDesc) (acc : List (List String)),
      (∃ n ∈ nics, ∃ p, n.pci = some p ∧ lookup p = none) →
      ∃ nm, assignLoop lookup nb nics acc = .error nm := by
  intro nics
  induction nics with
  | nil =>
    rintro acc ⟨n, hn, -⟩
    exact absurd hn (List.not_mem_nil n)
  | cons m rest ih =>
    rintro acc ⟨n, hn, p, hp, hl⟩
    rcases List.mem_cons.mp hn with rfl | hn
    · refine ⟨n.name, ?_⟩
      simp only [assignLoop, hp, hl]
    · cases hm : m.pci with
      | none =>
        obtain ⟨nm, hnm⟩ := ih acc ⟨n, hn, p, hp, hl⟩
        refine ⟨nm, ?_⟩
        simp only [assignLoop, hm]
        exact hnm
      | some q =>
        cases hq : lookup q with
        | none =>
          refine ⟨m.name, ?_⟩
          simp only [assignLoop, hm, hq]
        | some node =>
          obtain ⟨nm, hnm⟩ := ih _ ⟨n, hn, p, hp, hl⟩
          refine ⟨nm, ?_⟩
          simp only [assignLoop, hm, hq]
          exact hnm

/-- C9: under the "all" bucket policy a NIC with PCI bus data is still
looked up in the hardware topology, and a device missing from the topology
makes the whole resolution fail with a negative status — the fail-closed
check is not limited to "numa" bucketing. -/
theorem all_policy_topology_check (env : Env) (io : IOBehavior)
    (store : CounterStore) (addr np : String) (nics : List NicDesc)
    (n : NicDesc) (p : Pci)
    (haddr : (strncmpEq addr "cxi" || strncmpEq addr "ofi+cxi") = true)
    (hslash : lastTwoSlashes addr = true)
    (henum : env.enumResult = .ok nics)
    (hn : n ∈ nics) (hp : n.pci = some p) (hlook : env.pciLookup p = none) :
    (∃ nm, (mochi_plumber_resolve_nic env io store addr "all" np).res
        = .error (.topoNotFound nm))
    ∧ statusOf (mochi_plumber_resolve_nic env io store addr "all" np).res < 0 := by
  obtain ⟨nm, hnm⟩ := assignLoop_err_of_lookup_fail env.pciLookup 1 nics
    (List.replicate 1 []) ⟨n, hn, p, hp, hlook⟩
  have key : mochi_plumber_resolve_nic env io store addr "all" np
      = ⟨.error (.topoNotFound nm), store, true, true, true, true,
          false, false, false, false⟩ := by
    rw [resolve_eligible env io store addr "all" np 1 haddr hslash
      (Or.inl ⟨rfl, rfl⟩)]
    unfold resolveBuckets
    simp only [henum, hnm]
  rw [key]
  refine ⟨⟨nm, rfl⟩, ?_⟩
  show (-1 : Int) < 0
  decide

/-- Witness for `all_policy_topology_check`: the concrete run fails with a
negative status. -/
theorem all_policy_topology_check_witness :
    (strncmpEq "cxi://" "cxi" || strncmpEq "cxi://" "ofi+cxi") = true
    ∧ statusOf (mochi_plumber_resolve_nic envLookupFail IOBehavior.allOk
        (fun _ => none) "cxi://" "all" "roundrobin").res < 0 :=
  ⟨rfl, (all_policy_topology_check envLookupFail IOBehavior.allOk (fun _ => none)
      "cxi://" "roundrobin" [⟨"cxi0", some pciA⟩] ⟨"cxi0", some pciA⟩ pciA rfl rfl
      rfl (List.mem_cons_self _ _) rfl rfl).2⟩

/-- Appending keeps the number of buckets. -/
theorem appendAt_length (bs : List (List String)) (i : Nat) (s : String) :
    (appendAt bs i s).length = bs.length := by
  simp [appendAt]

/-- Appending grows the addressed bucket (in range) by the name. -/
theorem appendAt_getD_self (bs : List (List String)) (i : Nat) (s : String)
    (h : i < bs.length) :
    (appendAt bs i s).getD i [] = bs.getD i [] ++ [s] := by
  simp [appendAt, List.getD_eq_getElem?_getD, List.getElem?_set_self h]

/-- Appending leaves the other buckets alone. -/
theorem appendAt_getD_ne (bs : List (List String)) (i j : Nat) (s : String)
    (h : i ≠ j) :
    (appendAt bs i s).getD j [] = bs.getD j [] := by
  simp [appendAt, List.getD_eq_getElem?_getD, List.getElem?_set_ne h]

/-- A successful assignment loop keeps the number of buckets. -/
theorem assignLoop_ok_length (lookup : Pci → Option Nat) (nb : Nat) :
    ∀ (nics : List NicDesc) (acc bs : List (List String)),
      assignLoop lookup nb nics acc = .ok bs → bs.length = acc.length := by
  intro nics
  induction nics with
  | nil =>
    intro acc bs h
    simp only [assignLoop] at h
    cases h
    rfl
  | cons m rest ih =>
    intro acc bs h
    cases hm : m.pci with
    | none =>
      simp only [assignLoop, hm] at h
      exact ih acc bs h
    | some q =>
      cases hq : lookup q with
      | none => simp [assignLoop, hm, hq] at h
      | some node =>
        simp only [assignLoop, hm, hq] at h
        rw [ih _ bs h, appendAt_length]

/-- A successful assignment loop found every PCI device in the topology. -/
theorem assignLoop_ok_lookup (lookup : Pci → Option Nat) (nb : Nat) :
    ∀ (nics : List NicDesc) (acc bs : List (List String)),
      assignLoop lookup nb nics acc = .ok bs →
      ∀ n ∈ nics, ∀ p, n.pci = some p → (lookup p).isSome := by
  intro nics
  induction nics with
  | nil =>
    intro acc bs _ n hn
    exact absurd hn (List.not_mem_nil n)
  | cons m rest ih =>
    intro acc bs h n hn p hp
    cases hm : m.pci with
    | none =>
      simp only [assignLoop, hm] at h
      rcases List.mem_cons.mp hn with rfl | hn
      · rw [hp] at hm; cases hm
      · exact ih acc bs h n hn p hp
    | some q =>
      cases hq : lookup q with
      | none => simp [assignLoop, hm, hq] at h
      | some node =>
        simp only [assignLoop, hm, hq] at h
        rcases List.mem_cons.mp hn with rfl | hn
        · rw [hp] at hm
          cases hm
          rw [hq]
          rfl
        · exact ih _ bs h n hn p hp

/-- Unfolding equation of `pciNames` on a cons. -/
theorem pciNames_cons (m : NicDesc) (rest : List NicDesc) :
    pciNames (m :: rest)
      = (match m.pci with
         | none => pciNames rest
         | some _ => m.name :: pciNames rest) := by
  cases hm : m.pci <;> simp [pciNames, List.filterMap_cons, hm]

/-- Unfolding equation of `bucketNames` on a cons. -/
theorem bucketNames_cons (lookup : Pci → Option Nat) (nb : Nat) (m : NicDesc)
    (rest : List NicDesc) (j : Nat) :
    bucketNames lookup nb (m :: rest) j
      = (match m.pci with
         | none => bucketNames lookup nb rest j
         | some p =>
           match lookup p with
           | none => bucketNames lookup nb rest j
           | some node =>
             if (if nb == 1 then 0 else node) = j
               then m.name :: bucketNames lookup nb rest j
               else bucketNames lookup nb rest j) := by
  cases hm : m.pci with
  | none => simp [bucketNames, List.filterMap_cons, hm]
  | some p =>
    cases hq : lookup p with
    | none => simp [bucketNames, List.filterMap_cons, hm, hq]
    | some node =>
      simp only [bucketNames, List.filterMap_cons, hm, hq]
      by_cases hij : (if nb == 1 then 0 else node) = j
      · rw [if_pos hij, if_pos hij]
      · rw [if_neg hij, if_neg hij]

/-- With a single bucket, the names routed to bucket 0 are exactly the
names of the interfaces that carry PCI data — provided every lookup
succeeds. -/
theorem bucketNames_one (lookup : Pci → Option Nat) (nics : List NicDesc)
    (h : ∀ n ∈ nics, ∀ p, n.pci = some p → (lookup p).isSome) :
    bucketNames lookup 1 nics 0 = pciNames nics := by
  induction nics with
  | nil => rfl
  | cons m rest ih =>
    have hrest : ∀ n ∈ rest, ∀ p, n.pci = some p → (lookup p).isSome :=
      fun n hn => h n (List.mem_cons_of_mem _ hn)
    rw [bucketNames_cons, pciNames_cons]
    cases hm : m.pci with
    | none => exact ih hrest
    | some p =>
      have hs := h m (List.mem_cons_self _ _) p hm
      cases hq : lookup p with
      | none => rw [hq] at hs; cases hs
      | some node => simp [hq, ih hrest]

/-- Central characterization of a successful assignment loop: every bucket
in range ends as its initial content followed by exactly the names routed to
it, provided every routed index is in range. -/
theorem assignLoop_ok_getD (lookup : Pci → Option Nat) (nb : Nat) :
    ∀ (nics : List NicDesc) (acc bs : List (List String)),
      assignLoop lookup nb nics acc = .ok bs →
      (∀ n ∈ nics, ∀ p, n.pci = some p → ∀ node, lookup p = some node →
        (if nb == 1 then 0 else node) < acc.length) →
      ∀ j, j < acc.length →
        bs.getD j [] = acc.getD j [] ++ bucketNames lookup nb nics j := by
  intro nics
  induction nics with
  | nil =>
    intro acc bs h _ j _
    simp only [assignLoop] at h
    cases h
    simp [bucketNames]
  | cons m rest ih =>
    intro acc bs h hrange j hj
    cases hm : m.pci with
    | none =>
      simp only [assignLoop, hm] at h
      rw [ih acc bs h (fun n hn => hrange n (List.mem_cons_of_mem _ hn)) j hj,
        bucketNames_cons]
      simp [hm]
    | some q =>
      cases hq : lookup q with
      | none => simp [assignLoop, hm, hq] at h
      | some node =>
        simp only [assignLoop, hm, hq] at h
        have hidxlt : (if nb == 1 then 0 else node) < acc.length :=
          hrange m (List.mem_cons_self _ _) q hm node hq
        have hlen : (appendAt acc (if nb == 1 then 0 else node) m.name).length
            = acc.length := appendAt_length ..
        have hrec := ih (appendAt acc (if nb == 1 then 0 else node) m.name) bs h
          (fun n hn p hp nd hnd => by
            rw [hlen]; exact hrange n (List.mem_cons_of_mem _ hn) p hp nd hnd)
          j (by rw [hlen]; exact hj)
        rw [hrec, bucketNames_cons]
        simp only [hm, hq]
        by_cases hij : (if nb == 1 then 0 else node) = j
        · rw [if_pos hij, hij, appendAt_getD_self acc j m.name (hij ▸ hidxlt)]
          simp
        · rw [if_neg hij, appendAt_getD_ne acc _ j m.name hij]

/-- `firstEmpty` returns `none` exactly when no bucket is empty. -/
theorem firstEmpty_eq_none_iff (bs : List (List String)) :
    firstEmpty bs = none ↔ ∀ b ∈ bs, b ≠ [] := by
  induction bs with
  | nil => simp [firstEmpty]
  | cons b rest ih =>
    cases hb : b.isEmpty with
    | true =>
      constructor
      · intro h
        exfalso
        simp [firstEmpty, hb] at h
      · intro h
        exact absurd (List.isEmpty_iff.mp hb) (h b (List.mem_cons_self _ _))
    | false =>
      have hbne : b ≠ [] := by
        intro hbe
        rw [hbe] at hb
        simp at hb
      simp only [firstEmpty, hb, Bool.false_eq_true, if_false, Option.map_eq_none',
        ih]
      constructor
      · intro h b' hb'
        rcases List.mem_cons.mp hb' with rfl | hmem
        · exact hbne
        · exact h b' hmem
      · intro h b' hb'
        exact h b' (List.mem_cons_of_mem _ hb')

/-- A `some` result of `firstEmpty` exhibits an empty bucket. -/
theorem firstEmpty_some_mem (bs : List (List String)) (i : Nat)
    (h : firstEmpty bs = some i) : ∃ b ∈ bs, b = [] := by
  induction bs generalizing i with
  | nil => simp [firstEmpty] at h
  | cons b rest ih =>
    cases hb : b.isEmpty with
    | true => exact ⟨b, List.mem_cons_self _ _, List.isEmpty_iff.mp hb⟩
    | false =>
      simp only [firstEmpty, hb, Bool.false_eq_true, if_false] at h
      cases hr : firstEmpty rest with
      | none => rw [hr] at h; cases h
      | some k =>
        obtain ⟨b', hb', he⟩ := ih k hr
        exact ⟨b', List.mem_cons_of_mem _ hb', he⟩

/-- A bucket list of length one is the singleton of its bucket 0. -/
theorem length_one_eq (l : List (List String)) (h : l.length = 1) :
    l = [l.getD 0 []] := by
  cases l with
  | nil => cases h
  | cons x t =>
    cases t with
    | nil => rfl
    | cons y u =>
      simp only [List.length_cons] at h
      omega

/-- Every bucket of the initial bucket array is empty. -/
theorem replicate_getD (n j : Nat) :
    (List.replicate n ([] : List String)).getD j [] = [] := by
  simp only [List.getD_eq_getElem?_getD, List.getElem?_replicate]
  split <;> rfl

/-- C5: on a successful assignment pass over the enumerated interfaces,
with a single bucket ("all") the bucket array is exactly one bucket holding
every interface that carries PCI bus data, in order; with `nb` buckets
("numa", `nb` = affinity-domain cardinality, every mapped node id in range)
the array has exactly `nb` buckets and bucket `j` holds exactly the
interfaces whose topology-mapped node id is `j` — interfaces without PCI
bus data appear in no bucket in either mode. -/
theorem bucket_partition (lookup : Pci → Option Nat) (nics : List NicDesc)
    (nb : Nat) (bsAll bsNuma : List (List String))
    (hAll : assignLoop lookup 1 nics (List.replicate 1 []) = .ok bsAll)
    (hNuma : assignLoop lookup nb nics (List.replicate nb []) = .ok bsNuma)
    (hrange : ∀ n ∈ nics, ∀ p, n.pci = some p →
        ∀ node, lookup p = some node → node < nb) :
    bsAll = [pciNames nics]
    ∧ bsNuma.length = nb
    ∧ (∀ j, j < nb → bsNuma.getD j [] = bucketNames lookup nb nics j) := by
  have hlenAll : bsAll.length = 1 := by
    rw [assignLoop_ok_length lookup 1 nics _ bsAll hAll]
    simp
  have hlenN : bsNuma.length = nb := by
    rw [assignLoop_ok_length lookup nb nics _ bsNuma hNuma]
    simp
  have hrangeN : ∀ n ∈ nics, ∀ p, n.pci = some p →
      ∀ node, lookup p = some node →
      (if nb == 1 then 0 else node) < (List.replicate nb ([] : List String)).length := by
    intro n hn p hp node hnd
    have hlt := hrange n hn p hp node hnd
    simp only [List.length_replicate]
    by_cases h1 : nb == 1
    · rw [if_pos h1]
      have : nb = 1 := by simpa using h1
      omega
    · rw [if_neg h1]
      exact hlt
  refine ⟨?_, hlenN, ?_⟩
  · have hget := assignLoop_ok_getD lookup 1 nics (List.replicate 1 []) bsAll hAll
      (fun n hn p hp node hnd => by simp) 0 (by simp)
    rw [length_one_eq bsAll hlenAll, hget, replicate_getD,
      bucketNames_one lookup nics (assignLoop_ok_lookup lookup 1 nics _ bsAll hAll)]
    simp
  · intro j hj
    have hget := assignLoop_ok_getD lookup nb nics (List.replicate nb []) bsNuma
      hNuma hrangeN j (by simpa using hj)
    rw [hget, replicate_getD]
    simp

/-- Witness for `bucket_partition`: three interfaces (`"a"` on node 0,
`"b"` without PCI data, `"c"` on node 1) under 1 and 2 buckets. -/
theorem bucket_partition_witness :
    ([["a", "c"]] : List (List String))
        = [pciNames [⟨"a", some pciA⟩, ⟨"b", none⟩, ⟨"c", some pciB⟩]]
    ∧ ([["a"], ["c"]] : List (List String)).length = 2 := by
  have h := bucket_partition
    (fun p => if p = pciA then some 0 else some 1)
    [⟨"a", some pciA⟩, ⟨"b", none⟩, ⟨"c", some pciB⟩] 2
    [["a", "c"]] [["a"], ["c"]] rfl rfl
    (by
      intro n hn p hp node hnd
      simp only [List.mem_cons, List.not_mem_nil, or_false] at hn
      rcases hn with rfl | rfl | rfl
      · simp only [Option.some.injEq] at hp
        subst hp
        simp [pciA, pciB] at hnd
        omega
      · simp at hp
      · simp only [Option.some.injEq] at hp
        subst hp
        simp [pciA, pciB] at hnd
        omega)
  exact ⟨h.1, h.2.1⟩

/-- C4 (amended): with an eligible address, valid policies, successful
enumeration and topology lookups, no counter-I/O failure, a successful
scheduler query and the NUMA index of the process within range, resolution fails
(negative status) if and only if at least one constructed bucket has zero
NICs, and on that failure the error names the index of the first empty bucket.
(Without the no-selection-failure proviso the "only if" direction is false:
see the counterexample, where a `pwrite` failure makes resolution fail with
every bucket non-empty.) -/
theorem no_empty_bucket_iff (env : Env) (store : CounterStore)
    (addr bp np : String) (nb : Nat) (nics : List NicDesc)
    (buckets : List (List String))
    (haddr : (strncmpEq addr "cxi" || strncmpEq addr "ofi+cxi") = true)
    (hslash : lastTwoSlashes addr = true)
    (hbp : (bp = "all" ∧ nb = 1) ∨ (bp = "numa" ∧ nb = env.numaCount))
    (hnp : np = "roundrobin" ∨ np = "random")
    (henum : env.enumResult = .ok nics)
    (hassign : assignLoop env.pciLookup nb nics (List.replicate nb []) = .ok buckets)
    (hcpu : env.lastCpuFails = false)
    (hidx : env.lastNuma < nb) (hnb : 0 < nb) :
    (statusOf (mochi_plumber_resolve_nic env IOBehavior.allOk store addr bp np).res < 0
      ↔ ∃ b ∈ buckets, b = [])
    ∧ (∀ i, firstEmpty buckets = some i →
        (mochi_plumber_resolve_nic env IOBehavior.allOk store addr bp np).res
          = .error (.emptyBucket i)) := by
  rw [resolve_eligible env IOBehavior.allOk store addr bp np nb haddr hslash hbp]
  cases hfe : firstEmpty buckets with
  | some i =>
    have hres : (resolveBuckets env IOBehavior.allOk store addr bp np nb).res
        = .error (.emptyBucket i) := by
      unfold resolveBuckets
      simp only [henum, hassign, hfe]
    refine ⟨?_, ?_⟩
    · rw [hres]
      constructor
      · intro _
        exact firstEmpty_some_mem buckets i hfe
      · intro _
        show (-1 : Int) < 0
        decide
    · intro i' hi'
      injection hi' with h
      subst h
      exact hres
  | none =>
    have hpick : pickBucket env bp nb = .ok (if nb == 1 then 0 else env.lastNuma) := by
      by_cases h1 : nb = 1
      · subst h1
        rfl
      · have h1' : (nb == 1) = false := by simpa using h1
        rcases hbp with ⟨rfl, rfl⟩ | ⟨rfl, hnbe⟩
        · exact absurd rfl h1
        · unfold pickBucket
          rw [h1']
          simp [hcpu]
    have hblen : buckets.length = nb := by
      rw [assignLoop_ok_length env.pciLookup nb nics _ buckets hassign]
      simp
    have hbl : (if nb == 1 then 0 else env.lastNuma) < nb := by
      by_cases h1 : nb = 1
      · subst h1
        simp
      · have h1' : (nb == 1) = false := by simpa using h1
        rw [h1']
        simpa using hidx
    have hsel : ∃ nic,
        (select_nic env bp np nb buckets IOBehavior.allOk store).res = .ok nic := by
      unfold select_nic
      simp only [hpick]
      cases h1 : ((buckets.getD (if nb == 1 then 0 else env.lastNuma) []).length == 1) with
      | true => exact ⟨_, rfl⟩
      | false =>
        rcases hnp with rfl | rfl
        · exact ⟨_, rfl⟩
        · exact ⟨_, rfl⟩
    obtain ⟨nic, hnic⟩ := hsel
    have hres : (resolveBuckets env IOBehavior.allOk store addr bp np nb).res
        = .ok (addr ++ nic) := by
      unfold resolveBuckets
      simp only [henum, hassign, hfe, hnic]
    refine ⟨?_, ?_⟩
    · rw [hres]
      constructor
      · intro hlt
        have h0 : (0 : Int) < 0 := hlt
        exact absurd h0 (by decide)
      · rintro ⟨b, hb, rfl⟩
        exact absurd rfl ((firstEmpty_eq_none_iff buckets).mp hfe _ hb)
    · intro i hi
      simp at hi

/-- Witness for `no_empty_bucket_iff`: the two-NIC single-bucket run under
round-robin neither has an empty bucket nor fails. -/
theorem no_empty_bucket_iff_witness :
    (statusOf (mochi_plumber_resolve_nic envW4 IOBehavior.allOk (fun _ => none)
        "cxi://" "all" "roundrobin").res < 0
      ↔ ∃ b ∈ ([["cxi0", "cxi1"]] : List (List String)), b = [])
    ∧ (∀ i, firstEmpty [["cxi0", "cxi1"]] = some i →
        (mochi_plumber_resolve_nic envW4 IOBehavior.allOk (fun _ => none)
          "cxi://" "all" "roundrobin").res = .error (.emptyBucket i)) :=
  no_empty_bucket_iff envW4 (fun _ => none) "cxi://" "all" "roundrobin" 1
    [⟨"cxi0", some pciA⟩, ⟨"cxi1", some pciB⟩] [["cxi0", "cxi1"]]
    rfl rfl (Or.inl ⟨rfl, rfl⟩) (Or.inl rfl) rfl rfl rfl (by decide) (by decide)

/-- C4 counterexample: a failing `pwrite` during round-robin selection
makes the whole resolution return a negative status although every
constructed bucket is non-empty — so "resolution fails if and only if at
least one constructed bucket has zero NICs" is false as stated. -/
theorem selection_failure_without_empty_bucket :
    assignLoop envW4.pciLookup 1 [⟨"cxi0", some pciA⟩, ⟨"cxi1", some pciB⟩]
        (List.replicate 1 []) = .ok [["cxi0", "cxi1"]]
    ∧ firstEmpty [["cxi0", "cxi1"]] = none
    ∧ statusOf (mochi_plumber_resolve_nic envW4 ⟨false, false, false, false, true⟩
        (fun _ => none) "cxi://" "all" "roundrobin").res = -1 :=
  ⟨rfl, rfl, rfl⟩

end MochiPlumber
